import Mathlib

/-!
Shallow embedding of the factcheck-engine core (claim_detector.py,
priority_scorer.py, and the deduplication step of daily_email_reporter.py),
together with theorems checking the natural-language specification.

Text is modelled as `List Char` (Python `str`).  The regular-expression
patterns used by the detector are embedded in a small backtracking matcher
whose alternation is left-first, whose greedy quantifiers prefer the longest
extension and whose lazy quantifiers prefer the shortest, exactly as in
Python's `re` module; every quantified subexpression appearing in the
source's patterns is a single-character class, which the syntax below
reflects.  Character classes are the ASCII readings of `\d`, `\s` and `.`
(the article text handled by the program is Korean prose where these
coincide with Python's defaults).
-/

namespace FactCheck

/-- Character classes occurring in the source's regexes: `\d`, `\s` and `.`. -/
inductive CharClass where
  | digit
  | ws
  | dot
deriving DecidableEq

/-- Does a character belong to a class?  `\d` is `0`-`9`, `\s` is ASCII
whitespace, `.` is any character except a newline (Python default). -/
def chMatch : CharClass → Char → Bool
  | .digit, c => '0' ≤ c && c ≤ '9'
  | .ws, c => c = ' ' || c = '\t' || c = '\n' || c = '\r' || c = '\x0b' || c = '\x0c'
  | .dot, c => c ≠ '\n'

/-- Regular expressions as used by the detector.  Quantifiers are restricted
to character classes (`starG` greedy `*`, `starL` lazy `*`), which covers
every pattern in the source. -/
inductive Re where
  | eps
  | lit (c : Char)
  | cls (p : CharClass)
  | alt (a b : Re)
  | cat (a b : Re)
  | starG (p : CharClass)
  | starL (p : CharClass)
deriving DecidableEq

/-- Backtracking matcher with explicit fuel.  `mrun f r s k` tries to match
`r` at the start of `s` and passes the remaining suffix to the continuation
`k`; the first success in Python's backtracking order is returned.
Alternation tries the left branch first, the greedy star consumes as many
characters as possible before falling back, the lazy star tries the
continuation first. -/
def mrun : Nat → Re → List Char → (List Char → Option (List Char)) → Option (List Char)
  | 0, _, _, _ => none
  | _ + 1, .eps, s, k => k s
  | _ + 1, .lit c, s, k =>
    match s with
    | [] => none
    | x :: xs => if x = c then k xs else none
  | _ + 1, .cls p, s, k =>
    match s with
    | [] => none
    | x :: xs => if chMatch p x then k xs else none
  | f + 1, .alt a b, s, k =>
    (mrun f a s k).orElse (fun _ => mrun f b s k)
  | f + 1, .cat a b, s, k =>
    mrun f a s (fun s₁ => mrun f b s₁ k)
  | f + 1, .starG p, s, k =>
    (match s with
     | x :: xs => if chMatch p x then mrun f (.starG p) xs k else none
     | [] => none).orElse (fun _ => k s)
  | f + 1, .starL p, s, k =>
    (k s).orElse (fun _ =>
      match s with
      | x :: xs => if chMatch p x then mrun f (.starL p) xs k else none
      | [] => none)

/-- Try to match `r` at the beginning of `s`, returning the unmatched
suffix of the first match in backtracking order. -/
def tryMatch (r : Re) (s : List Char) : Option (List Char) :=
  mrun (4 * s.length + 100) r s some

/-- One scanning step of `re.finditer`: starting at position `pos`, emit the
span `(start, end)` of each successive non-overlapping leftmost match. -/
def finditerGo (r : Re) (cs : List Char) : Nat → Nat → List (Nat × Nat)
  | 0, _ => []
  | f + 1, pos =>
    if cs.length < pos then []
    else
      match tryMatch r (cs.drop pos) with
      | none => finditerGo r cs f (pos + 1)
      | some rem =>
        let e := pos + ((cs.length - pos) - rem.length)
        (pos, e) :: finditerGo r cs f (max e (pos + 1))

/-- `re.finditer(pattern, text)`, as the list of `(start, end)` spans. -/
def finditer (r : Re) (cs : List Char) : List (Nat × Nat) :=
  finditerGo r cs (cs.length + 1) 0

/-- `re.search(pattern, text)` used as a boolean. -/
def reSearch (r : Re) (cs : List Char) : Bool :=
  !(finditer r cs).isEmpty

/-- Python slice `text[a:b]` (for the clamped indices used by the source). -/
def slice (cs : List Char) (a b : Nat) : List Char :=
  (cs.take b).drop a

/-- Python `str.strip()` restricted to ASCII whitespace. -/
def stripWS (cs : List Char) : List Char :=
  ((cs.dropWhile (chMatch .ws)).reverse.dropWhile (chMatch .ws)).reverse

/-- Is `w` a prefix of `cs`? -/
def prefixAt : List Char → List Char → Bool
  | [], _ => true
  | _ :: _, [] => false
  | a :: as, b :: bs => a = b && prefixAt as bs

/-- Python `text.find(word)` / `word in text`: index of the first occurrence
of `w` as a contiguous substring of `cs`, if any. -/
def firstOccur (w : List Char) : List Char → Option Nat
  | [] => if w.isEmpty then some 0 else none
  | c :: cs =>
    if prefixAt w (c :: cs) then some 0
    else (firstOccur w cs).map (· + 1)

/-- Substring containment, Python `w in text`. -/
def containsSub (w cs : List Char) : Bool :=
  (firstOccur w cs).isSome

/-- Literal string as a regex (concatenation of its characters). -/
def rstr (s : String) : Re :=
  s.data.foldr (fun c r => Re.cat (Re.lit c) r) Re.eps

/-- Alternation of literal strings, tried left to right. -/
def altStrs : List String → Re
  | [] => Re.eps
  | [s] => rstr s
  | s :: rest => Re.alt (rstr s) (altStrs rest)

/-- Greedy `\s*`. -/
def wsS : Re := Re.starG .ws

/-- Greedy `\d+`. -/
def digits : Re := Re.cat (Re.cls .digit) (Re.starG .digit)

/-- `(\d+(?:\.\d+)?)`: an integer with an optional (greedily tried) decimal
part. -/
def num : Re := Re.cat digits (Re.alt (Re.cat (Re.lit '.') digits) Re.eps)

/-- Lazy `(.+?)`. -/
def dotPlusLazy : Re := Re.cat (Re.cls .dot) (Re.starL .dot)

/-- Greedy `(.+)`. -/
def dotPlusGreedy : Re := Re.cat (Re.cls .dot) (Re.starG .dot)

/-- The nine statistical patterns of `ClaimDetector.__init__`. -/
def stat_patterns : List Re :=
  [ Re.cat num (Re.cat wsS (Re.cat (rstr "배") (Re.cat wsS (altStrs ["증가", "감소", "상승", "하락"])))),
    Re.cat num (Re.cat wsS (Re.cat (rstr "%") (Re.cat wsS (altStrs ["증가", "감소", "상승", "하락", "돌파"])))),
    Re.cat num (Re.cat wsS (Re.cat (rstr "조") (Re.cat wsS (rstr "원")))),
    Re.cat num (Re.cat wsS (Re.cat (rstr "억") (Re.cat wsS (rstr "원")))),
    Re.cat (rstr "전년") (Re.cat wsS (Re.cat (rstr "대비") (Re.cat wsS (Re.cat num (Re.cat wsS (rstr "%")))))),
    Re.cat num (Re.cat wsS (Re.cat (rstr "명") (Re.cat wsS (altStrs ["증가", "감소", "사망"])))),
    Re.cat num (Re.cat wsS (Re.cat (rstr "건") (Re.cat wsS (altStrs ["증가", "감소", "발생"])))),
    Re.cat (rstr "사상") (Re.cat wsS (altStrs ["최대", "최고", "최저"])),
    Re.cat (rstr "역대") (Re.cat wsS (altStrs ["최대", "최고", "최저"])) ]

/-- The three causal patterns of `ClaimDetector.__init__`. -/
def causal_patterns : List Re :=
  [ Re.cat dotPlusLazy (Re.cat wsS (Re.cat (altStrs ["때문에", "탓에"]) (Re.cat wsS dotPlusGreedy))),
    Re.cat dotPlusLazy (Re.cat wsS (Re.cat (altStrs ["영향으로", "여파로"]) (Re.cat wsS dotPlusGreedy))),
    Re.cat dotPlusLazy (Re.cat wsS (Re.cat (altStrs ["가", "이"]) (Re.cat wsS (Re.cat dotPlusLazy (Re.cat wsS (altStrs ["초래", "유발"])))))) ]

/-- The fixed extreme-language vocabulary of `ClaimDetector.__init__`. -/
def extreme_words : List (List Char) :=
  [ "폭증".data, "급증".data, "급감".data, "폭락".data, "급락".data,
    "사상 최대".data, "사상 최고".data, "역대 최대".data, "역대 최고".data,
    "기록적".data, "전례없는".data, "유례없는".data ]

/-- The four vague-source (hedging) patterns of `ClaimDetector.__init__`. -/
def vague_patterns : List Re :=
  [ Re.cat (altStrs ["것으로", "인", "이"]) (Re.cat wsS (rstr "알려졌다")),
    Re.cat (altStrs ["것으로", "인", "이"]) (Re.cat wsS (rstr "보인다")),
    Re.cat (altStrs ["것으로", "인", "이"]) (Re.cat wsS (rstr "추정된다")),
    Re.cat (altStrs ["것으로", "인", "이"]) (Re.cat wsS (rstr "전해졌다")) ]

/-- The type of a detected claim. -/
inductive CType where
  | statistical
  | causal
  | extreme
deriving DecidableEq

/-- The fixed per-type confidence of a claim. -/
inductive Conf where
  | HIGH
  | MEDIUM
  | LOW
deriving DecidableEq

/-- A claim record as produced by `ClaimDetector.detect`:
`{'claim': …, 'type': …, 'confidence': …, 'matched_text': …}`. -/
structure Claim where
  claim : List Char
  type : CType
  confidence : Conf
  matched_text : List Char
deriving DecidableEq

/-- Statistical candidates: for every match span of every statistical
pattern, a claim of type `statistical`, confidence `HIGH`, whose snippet is
the stripped ±30-character window around the matched span and whose
`matched_text` is the matched span itself. -/
def stat_candidates (cs : List Char) : List Claim :=
  (stat_patterns.map fun p =>
    (finditer p cs).map fun se =>
      { claim := stripWS (slice cs (se.1 - 30) (min cs.length (se.2 + 30))),
        type := CType.statistical,
        confidence := Conf.HIGH,
        matched_text := slice cs se.1 se.2 }).flatten

/-- Causal candidates: for every match span of every causal pattern, a claim
of type `causal`, confidence `MEDIUM`, whose snippet and `matched_text` are
both the full matched span. -/
def causal_candidates (cs : List Char) : List Claim :=
  (causal_patterns.map fun p =>
    (finditer p cs).map fun se =>
      { claim := slice cs se.1 se.2,
        type := CType.causal,
        confidence := Conf.MEDIUM,
        matched_text := slice cs se.1 se.2 }).flatten

/-- The extreme-language claim built for a vocabulary word found at index
`idx`: type `extreme`, confidence `MEDIUM`, snippet the stripped
±30-character window around the occurrence, `matched_text` the word. -/
def extremeClaimAt (cs w : List Char) (idx : Nat) : Claim :=
  { claim := stripWS (slice cs (idx - 30) (min cs.length (idx + w.length + 30))),
    type := CType.extreme,
    confidence := Conf.MEDIUM,
    matched_text := w }

/-- The candidate (if any) built for one vocabulary word: present exactly
when the word occurs in the text, placed at its first occurrence. -/
def extF (cs w : List Char) : Option Claim :=
  (firstOccur w cs).map (extremeClaimAt cs w)

/-- Extreme-language candidates: one claim per vocabulary word occurring in
the text, in vocabulary order. -/
def extreme_candidates (cs : List Char) : List Claim :=
  extreme_words.filterMap (extF cs)

/-- The loop of `ClaimDetector._deduplicate`: keep a claim when its
`matched_text` has not been seen yet. -/
def dedupLoop : List Claim → List (List Char) → List Claim
  | [], _ => []
  | c :: rest, seen =>
    if c.matched_text ∈ seen then dedupLoop rest seen
    else c :: dedupLoop rest (c.matched_text :: seen)

/-- `ClaimDetector._deduplicate`. -/
def deduplicate (claims : List Claim) : List Claim :=
  dedupLoop claims []

/-- `ClaimDetector.detect`: statistical, causal and extreme candidates in
that order, then deduplication by `matched_text`. -/
def detect (cs : List Char) : List Claim :=
  deduplicate (stat_candidates cs ++ causal_candidates cs ++ extreme_candidates cs)

/-- `ClaimDetector.has_vague_source`. -/
def has_vague_source (cs : List Char) : Bool :=
  vague_patterns.any fun p => reSearch p cs

end FactCheck

namespace FactCheck

/-- An article record as produced by the extraction collaborator:
`url`, `title`, `text`, `source`, `date`, `journalist`. -/
structure Article where
  url : List Char
  title : List Char
  text : List Char
  source : List Char
  date : List Char
  journalist : List Char
deriving DecidableEq

/-- The priority tier. -/
inductive Priority where
  | HIGH
  | MEDIUM
  | LOW
deriving DecidableEq

/-- The result record of `PriorityScorer.calculate_score`.  `breakdown` is a
Python dict built by insertion, modelled as an association list in insertion
order. -/
structure ScoreResult where
  total_score : Nat
  breakdown : List (String × Nat)
  should_factcheck : Bool
  priority : Priority
  claims_count : Nat
  statistical_claims : Nat
  causal_claims : Nat
  extreme_claims : Nat
deriving DecidableEq

/-- `PriorityScorer.THRESHOLD`. -/
def THRESHOLD : Nat := 30

/-- `PriorityScorer.political_keywords`. -/
def political_keywords : List (List Char) :=
  [ "정부".data, "정책".data, "국회".data, "대통령".data, "장관".data,
    "여당".data, "야당".data, "선거".data, "법안".data ]

/-- `PriorityScorer.economic_keywords`. -/
def economic_keywords : List (List Char) :=
  [ "경제".data, "GDP".data, "성장률".data, "물가".data, "금리".data,
    "부채".data, "세금".data, "월세".data, "전세".data, "주택".data,
    "실업".data, "고용".data, "임금".data, "소득".data ]

/-- `PriorityScorer._is_political_or_economic`: does the text contain any
political or any economic keyword? -/
def is_political_or_economic (cs : List Char) : Bool :=
  political_keywords.any (fun kw => containsSub kw cs)
    || economic_keywords.any (fun kw => containsSub kw cs)

/-- The strong-tone title keywords of `calculate_score` step 6. -/
def title_bonus_keywords : List (List Char) :=
  [ "증가".data, "감소".data, "폭증".data, "급증".data,
    "하락".data, "최대".data, "최저".data, "역대".data ]

/-- `PriorityScorer.calculate_score`.  Six additive categories, each firing
at most once; the breakdown records the categories in the order the source
inserts them. -/
def calculate_score (article : Article) (claims : List Claim) (hv : Bool) : ScoreResult :=
  let stat_claims := claims.filter fun c => c.type = CType.statistical
  let causal_claims := claims.filter fun c => c.type = CType.causal
  let extreme_claims := claims.filter fun c => c.type = CType.extreme
  let s1 : Nat := if stat_claims.isEmpty then 0 else 30
  let b1 : List (String × Nat) := if stat_claims.isEmpty then [] else [("statistical_claim", 30)]
  let s2 : Nat := if causal_claims.isEmpty then 0 else 20
  let b2 : List (String × Nat) := if causal_claims.isEmpty then [] else [("causal_claim", 20)]
  let s3 : Nat := if extreme_claims.isEmpty then 0 else 15
  let b3 : List (String × Nat) := if extreme_claims.isEmpty then [] else [("extreme_language", 15)]
  let s4 : Nat := if hv then 25 else 0
  let b4 : List (String × Nat) := if hv then [("vague_source", 25)] else []
  let fullText := article.text ++ [' '] ++ article.title
  let s5 : Nat := if is_political_or_economic fullText then 10 else 0
  let b5 : List (String × Nat) := if is_political_or_economic fullText then [("political_economic", 10)] else []
  let titleHit := title_bonus_keywords.any fun kw => containsSub kw article.title
  let s6 : Nat := if titleHit then 20 else 0
  let b6 : List (String × Nat) := if titleHit then [("title_keyword", 20)] else []
  let score := s1 + s2 + s3 + s4 + s5 + s6
  { total_score := score,
    breakdown := b1 ++ b2 ++ b3 ++ b4 ++ b5 ++ b6,
    should_factcheck := decide (THRESHOLD ≤ score),
    priority := if 85 ≤ score then Priority.HIGH
                else if 70 ≤ score then Priority.MEDIUM
                else Priority.LOW,
    claims_count := claims.length,
    statistical_claims := stat_claims.length,
    causal_claims := causal_claims.length,
    extreme_claims := extreme_claims.length }

/-- One analyzed article of the reporting batch:
`{'url': …, 'article': …, 'claims': …, 'score': …}`. -/
structure AnalyzedArticle where
  url : List Char
  article : Article
  claims : List Claim
  score : ScoreResult
deriving DecidableEq

/-- A deduplication group as reported: the representative article together
with `related_count` and `related_info` added by `_deduplicate_articles`. -/
structure ReportGroup where
  base : AnalyzedArticle
  related_count : Nat
  related_info : List (List Char)
deriving DecidableEq

/-- Python string `<=` (lexicographic over code points; a proper prefix is
smaller). -/
def strLe : List Char → List Char → Bool
  | [], _ => true
  | _ :: _, [] => false
  | a :: as, b :: bs => if a < b then true else if b < a then false else strLe as bs

/-- The date ordering used by `sorted(articles, key=lambda x: x['article']['date'])`. -/
def dateRel (x y : AnalyzedArticle) : Prop :=
  strLe x.article.date y.article.date = true

instance : DecidableRel dateRel := fun x y =>
  inferInstanceAs (Decidable (strLe x.article.date y.article.date = true))

/-- The date sort of `_deduplicate_articles` step 1 (Python `sorted` is a
stable sort by `<=`, which coincides with stable insertion sort). -/
def sortByDate (arts : List AnalyzedArticle) : List AnalyzedArticle :=
  List.insertionSort dateRel arts

/-- Modelled from the spec: the repository compares titles with
`difflib.SequenceMatcher(None, a, b).ratio()`, whose source is the Python
standard library and not part of this repository.  Per the spec this is the
"standard longest-matching-blocks ratio over character sequences":
`2 * M / (len(a) + len(b))` where `M` is the total size of the recursive
longest-matching-block decomposition.  `lcsRun` is the maximal common run at
a fixed pair of start positions. -/
def lcsRun : List Char → List Char → Nat
  | a :: as, b :: bs => if a = b then lcsRun as bs + 1 else 0
  | _, _ => 0

/-- Modelled from the spec: the longest matching block `(i, j, size)` of two
character sequences, earliest `i` then earliest `j` on ties. -/
def longestMatch (a b : List Char) : Nat × Nat × Nat :=
  ((List.range (a.length + 1)).flatMap fun i =>
    (List.range (b.length + 1)).map fun j =>
      (i, j, lcsRun (a.drop i) (b.drop j))).foldl
    (fun best cand => if best.2.2 < cand.2.2 then cand else best) (0, 0, 0)

/-- Modelled from the spec: total matched size of the recursive
longest-matching-block decomposition (`get_matching_blocks`). -/
def matchedTotal : Nat → List Char → List Char → Nat
  | 0, _, _ => 0
  | fuel + 1, a, b =>
    let ijk := longestMatch a b
    if ijk.2.2 = 0 then 0
    else
      ijk.2.2 + matchedTotal fuel (a.take ijk.1) (b.take ijk.2.1)
        + matchedTotal fuel (a.drop (ijk.1 + ijk.2.2)) (b.drop (ijk.2.1 + ijk.2.2))

/-- Modelled from the spec: `SequenceMatcher(None, a, b).ratio() > 0.6`,
expressed over exact rationals (`2M / T > 3 / 5`); `difflib` returns ratio
`1.0` when both sequences are empty. -/
def ratioGT06 (a b : List Char) : Bool :=
  let T := a.length + b.length
  if T = 0 then true
  else decide (3 * T < 10 * matchedTotal (T + 1) a b)

/-- The similarity test of `_deduplicate_articles` step 2: title-similarity
ratio above 0.6. -/
def simGT (cur cand : AnalyzedArticle) : Bool :=
  ratioGT06 cur.article.title cand.article.title

/-- The single grouping pass of `_deduplicate_articles`, with fuel for
structural recursion: each unvisited article collects all later unvisited
articles whose title is similar to its own, and the collected articles are
skipped from the rest of the pass. -/
def groupsOfGo : Nat → List AnalyzedArticle → List (AnalyzedArticle × List AnalyzedArticle)
  | 0, _ => []
  | _ + 1, [] => []
  | f + 1, cur :: rest =>
    (cur, rest.filter fun cand => simGT cur cand) ::
      groupsOfGo f (rest.filter fun cand => !(simGT cur cand))

/-- The grouping pass at its natural fuel (the list length, which bounds the
number of groups). -/
def groupsOf (l : List AnalyzedArticle) : List (AnalyzedArticle × List AnalyzedArticle) :=
  groupsOfGo l.length l

/-- Build a `ReportGroup` from a representative and its related articles:
`related_count = len(group) - 1` and one `"source (journalist)"` string per
related member, in group order. -/
def mkGroup (cur : AnalyzedArticle) (related : List AnalyzedArticle) : ReportGroup :=
  { base := cur,
    related_count := related.length,
    related_info := related.map fun item =>
      item.article.source ++ " (".data ++ item.article.journalist ++ ")".data }

/-- `DailyEmailReporter._deduplicate_articles`: sort by date, group by title
similarity, and keep at most the first 5 groups. -/
def deduplicate_articles (arts : List AnalyzedArticle) : List ReportGroup :=
  ((groupsOf (sortByDate arts)).map fun g => mkGroup g.1 g.2).take 5

end FactCheck

namespace FactCheck

/-! ### Lemmas about `_deduplicate` -/

/-- The deduplication loop returns a sublist of its input, so the relative
order of the kept claims is the order of discovery. -/
theorem dedupLoop_sublist (l : List Claim) (seen : List (List Char)) :
    List.Sublist (dedupLoop l seen) l := by
  induction l generalizing seen with
  | nil => simp [dedupLoop]
  | cons c rest ih =>
    simp only [dedupLoop]
    split
    · exact (ih _).cons _
    · exact (ih _).cons₂ _

/-- No claim kept by the loop has a `matched_text` from the seen set. -/
theorem dedupLoop_not_seen (l : List Claim) (seen : List (List Char)) :
    ∀ c ∈ dedupLoop l seen, c.matched_text ∉ seen := by
  induction l generalizing seen with
  | nil => simp [dedupLoop]
  | cons c rest ih =>
    simp only [dedupLoop]
    split
    · exact ih _
    · intro d hd
      rcases List.mem_cons.mp hd with rfl | hd
      · assumption
      · exact fun hmem => (ih _ d hd) (List.mem_cons_of_mem _ hmem)

/-- The kept claims have pairwise distinct `matched_text` values. -/
theorem dedupLoop_pairwise (l : List Claim) (seen : List (List Char)) :
    (dedupLoop l seen).Pairwise fun a b => a.matched_text ≠ b.matched_text := by
  induction l generalizing seen with
  | nil => simp [dedupLoop]
  | cons c rest ih =>
    simp only [dedupLoop]
    split
    · exact ih _
    · refine List.pairwise_cons.mpr ⟨fun d hd => ?_, ih _⟩
      intro hEq
      exact dedupLoop_not_seen _ _ d hd (hEq ▸ List.mem_cons_self _ _)

/-- A claim with no earlier duplicate of its `matched_text` (and none in the
seen set) is kept with its full record. -/
theorem dedupLoop_keep_first (pre : List Claim) (c : Claim) (post : List Claim) :
    ∀ seen : List (List Char), (∀ d ∈ pre, d.matched_text ≠ c.matched_text) →
      c.matched_text ∉ seen → c ∈ dedupLoop (pre ++ c :: post) seen := by
  induction pre with
  | nil =>
    intro seen _ hseen
    simp only [List.nil_append, dedupLoop, if_neg hseen]
    exact List.mem_cons_self _ _
  | cons d pre ih =>
    intro seen hpre hseen
    have hd : d.matched_text ≠ c.matched_text := hpre d (List.mem_cons_self _ _)
    have hpre' : ∀ d' ∈ pre, d'.matched_text ≠ c.matched_text :=
      fun d' hd' => hpre d' (List.mem_cons_of_mem _ hd')
    simp only [List.cons_append, dedupLoop]
    split
    · exact ih _ hpre' hseen
    · refine List.mem_cons_of_mem _ (ih _ hpre' ?_)
      intro hmem
      rcases List.mem_cons.mp hmem with h | h
      · exact hd h.symm
      · exact hseen h

/-- Every `matched_text` value of the input survives deduplication. -/
theorem dedupLoop_matched_mem (l : List Claim) (seen : List (List Char)) :
    ∀ c ∈ l, c.matched_text ∉ seen →
      ∃ d ∈ dedupLoop l seen, d.matched_text = c.matched_text := by
  induction l generalizing seen with
  | nil => simp
  | cons x rest ih =>
    intro c hc hcs
    by_cases hx : x.matched_text ∈ seen
    · rw [dedupLoop, if_pos hx]
      rcases List.mem_cons.mp hc with rfl | hc
      · exact absurd hx hcs
      · exact ih _ c hc hcs
    · rw [dedupLoop, if_neg hx]
      rcases List.mem_cons.mp hc with rfl | hc
      · exact ⟨c, List.mem_cons_self _ _, rfl⟩
      · by_cases hcx : c.matched_text = x.matched_text
        · exact ⟨x, List.mem_cons_self _ _, hcx.symm⟩
        · obtain ⟨d, hd, hdm⟩ := ih (x.matched_text :: seen) c hc (by
            intro hmem
            rcases List.mem_cons.mp hmem with h | h
            · exact hcx h
            · exact hcs h)
          exact ⟨d, List.mem_cons_of_mem _ hd, hdm⟩

/-- C3: for every text the claims returned by `detect` have pairwise
distinct `matched_text` values; and on any candidate list, deduplication
keeps the first-discovered record of each `matched_text` in full, preserves
the relative order of the kept claims, and loses no `matched_text` value. -/
theorem detect_dedup_first_record_kept :
    (∀ t : List Char, (detect t).Pairwise fun a b => a.matched_text ≠ b.matched_text)
    ∧ ∀ l : List Claim,
        List.Sublist (deduplicate l) l
        ∧ (∀ pre c post, l = pre ++ c :: post →
            (∀ d ∈ pre, d.matched_text ≠ c.matched_text) → c ∈ deduplicate l)
        ∧ ∀ c ∈ l, ∃ d ∈ deduplicate l, d.matched_text = c.matched_text := by
  refine ⟨fun t => dedupLoop_pairwise _ _, fun l => ⟨dedupLoop_sublist _ _, ?_, ?_⟩⟩
  · intro pre c post hl hpre
    subst hl
    exact dedupLoop_keep_first pre c post [] hpre (List.not_mem_nil _)
  · intro c hc
    exact dedupLoop_matched_mem l [] c hc (List.not_mem_nil _)

/-- Concrete claims exercising the deduplication contract. -/
def wClaimA : Claim := ⟨"first record".data, CType.statistical, Conf.HIGH, "x%".data⟩

def wClaimB : Claim := ⟨"other".data, CType.causal, Conf.MEDIUM, "y배".data⟩

def wClaimC : Claim := ⟨"later duplicate".data, CType.extreme, Conf.MEDIUM, "x%".data⟩

/-- Witness for C3: on a list whose first and third candidates share a
`matched_text`, the first full record is kept, the second claim survives in
order, and a concrete `detect` output is duplicate-free. -/
theorem detect_dedup_first_record_kept_witness :
    deduplicate [wClaimA, wClaimB, wClaimC] = [wClaimA, wClaimB]
    ∧ wClaimA ∈ deduplicate [wClaimA, wClaimB, wClaimC]
    ∧ (detect ("사상 최대 규모로 3배 증가했다").data).Pairwise
        fun a b => a.matched_text ≠ b.matched_text := by
  refine ⟨by decide, ?_, detect_dedup_first_record_kept.1 _⟩
  exact (detect_dedup_first_record_kept.2 [wClaimA, wClaimB, wClaimC]).2.1
    [] wClaimA [wClaimB, wClaimC] rfl (by decide)

end FactCheck

namespace FactCheck

/-! ### Lemmas about `calculate_score` -/

/-- The emptiness test the scorer applies to a filtered claim list, as a
presence statement. -/
theorem filter_type_isEmpty_iff (cl : List Claim) (t : CType) :
    (cl.filter fun c => c.type = t).isEmpty = true ↔ ¬ ∃ c ∈ cl, c.type = t := by
  simp [List.isEmpty_iff, List.filter_eq_nil_iff]

/-- The total score, by unfolding: sum of the six category contributions. -/
theorem calculate_score_total_eq (a : Article) (cl : List Claim) (v : Bool) :
    (calculate_score a cl v).total_score =
      (if (cl.filter fun c => c.type = CType.statistical).isEmpty then 0 else 30)
      + (if (cl.filter fun c => c.type = CType.causal).isEmpty then 0 else 20)
      + (if (cl.filter fun c => c.type = CType.extreme).isEmpty then 0 else 15)
      + (if v then 25 else 0)
      + (if is_political_or_economic (a.text ++ [' '] ++ a.title) then 10 else 0)
      + (if title_bonus_keywords.any fun kw => containsSub kw a.title then 20 else 0) := rfl

/-- The breakdown, by unfolding: the triggered categories in insertion
order. -/
theorem calculate_score_breakdown_eq (a : Article) (cl : List Claim) (v : Bool) :
    (calculate_score a cl v).breakdown =
      (if (cl.filter fun c => c.type = CType.statistical).isEmpty then [] else [("statistical_claim", 30)])
      ++ (if (cl.filter fun c => c.type = CType.causal).isEmpty then [] else [("causal_claim", 20)])
      ++ (if (cl.filter fun c => c.type = CType.extreme).isEmpty then [] else [("extreme_language", 15)])
      ++ (if v then [("vague_source", 25)] else [])
      ++ (if is_political_or_economic (a.text ++ [' '] ++ a.title) then [("political_economic", 10)] else [])
      ++ (if title_bonus_keywords.any fun kw => containsSub kw a.title then [("title_keyword", 20)] else []) := rfl

/-- The fact-check flag, by unfolding: total score against the threshold. -/
theorem calculate_score_should_eq (a : Article) (cl : List Claim) (v : Bool) :
    (calculate_score a cl v).should_factcheck
      = decide (THRESHOLD ≤ (calculate_score a cl v).total_score) := rfl

/-- The priority tier, by unfolding: thresholds 85 and 70 over the total
score. -/
theorem calculate_score_priority_eq (a : Article) (cl : List Claim) (v : Bool) :
    (calculate_score a cl v).priority
      = (if 85 ≤ (calculate_score a cl v).total_score then Priority.HIGH
         else if 70 ≤ (calculate_score a cl v).total_score then Priority.MEDIUM
         else Priority.LOW) := rfl

/-- Sum of the snd components of an `if`-guarded empty-or-singleton list. -/
theorem snd_sum_ite_neg (p : Prop) [Decidable p] (k : String) (w : Nat) :
    ((if p then ([] : List (String × Nat)) else [(k, w)]).map Prod.snd).sum
      = if p then 0 else w := by
  split <;> simp

/-- Sum of the snd components of an `if`-guarded singleton-or-empty list. -/
theorem snd_sum_ite_pos (p : Prop) [Decidable p] (k : String) (w : Nat) :
    ((if p then [(k, w)] else ([] : List (String × Nat))).map Prod.snd).sum
      = if p then w else 0 := by
  split <;> simp

/-- Membership in an `if`-guarded empty-or-singleton list. -/
theorem mem_ite_nil_singleton {α} (p : Prop) [Decidable p] (x y : α) :
    x ∈ (if p then [] else [y]) ↔ ¬p ∧ x = y := by
  split <;> simp_all

/-- Membership in an `if`-guarded singleton-or-empty list. -/
theorem mem_ite_singleton_nil {α} (p : Prop) [Decidable p] (x y : α) :
    x ∈ (if p then [y] else []) ↔ p ∧ x = y := by
  split <;> simp_all

/-- C1: the breakdown values sum exactly to the total score, and the
breakdown has an entry for a category exactly when that category's trigger
condition fired on the input. -/
theorem calculate_score_breakdown_exact (a : Article) (cl : List Claim) (v : Bool) :
    (((calculate_score a cl v).breakdown.map Prod.snd).sum
        = (calculate_score a cl v).total_score)
    ∧ ((("statistical_claim", 30) ∈ (calculate_score a cl v).breakdown)
        ↔ ∃ c ∈ cl, c.type = CType.statistical)
    ∧ ((("causal_claim", 20) ∈ (calculate_score a cl v).breakdown)
        ↔ ∃ c ∈ cl, c.type = CType.causal)
    ∧ ((("extreme_language", 15) ∈ (calculate_score a cl v).breakdown)
        ↔ ∃ c ∈ cl, c.type = CType.extreme)
    ∧ ((("vague_source", 25) ∈ (calculate_score a cl v).breakdown) ↔ v = true)
    ∧ ((("political_economic", 10) ∈ (calculate_score a cl v).breakdown)
        ↔ is_political_or_economic (a.text ++ [' '] ++ a.title) = true)
    ∧ ((("title_keyword", 20) ∈ (calculate_score a cl v).breakdown)
        ↔ (title_bonus_keywords.any fun kw => containsSub kw a.title) = true) := by
  have h1 : ((cl.filter fun c => c.type = CType.statistical).isEmpty = false)
      ↔ ∃ c ∈ cl, c.type = CType.statistical := by
    rw [← Bool.not_eq_true]
    exact (not_congr (filter_type_isEmpty_iff cl CType.statistical)).trans not_not
  have h2 : ((cl.filter fun c => c.type = CType.causal).isEmpty = false)
      ↔ ∃ c ∈ cl, c.type = CType.causal := by
    rw [← Bool.not_eq_true]
    exact (not_congr (filter_type_isEmpty_iff cl CType.causal)).trans not_not
  have h3 : ((cl.filter fun c => c.type = CType.extreme).isEmpty = false)
      ↔ ∃ c ∈ cl, c.type = CType.extreme := by
    rw [← Bool.not_eq_true]
    exact (not_congr (filter_type_isEmpty_iff cl CType.extreme)).trans not_not
  refine ⟨?_, ?_, ?_, ?_, ?_, ?_, ?_⟩ <;>
    rw [calculate_score_breakdown_eq] <;>
    [rw [calculate_score_total_eq]; skip; skip; skip; skip; skip; skip] <;>
    simp only [List.map_append, List.sum_append, snd_sum_ite_neg, snd_sum_ite_pos,
      List.mem_append, mem_ite_nil_singleton, mem_ite_singleton_nil, Prod.mk.injEq,
      Bool.not_eq_true]
  · simp [h1]
  · simp [h2]
  · simp [h3]
  · simp
  · simp
  · simp

end FactCheck

namespace FactCheck

/-- An article with all fields empty. -/
def exArticle : Article := ⟨[], [], [], [], [], []⟩

/-- A bare statistical claim. -/
def exStatClaim : Claim := ⟨"x".data, CType.statistical, Conf.HIGH, "x".data⟩

/-- C2: the fact-check flag fires exactly at total score 30, the tier
thresholds are 85 and 70, and some input is flagged for fact-checking while
still receiving tier LOW. -/
theorem should_factcheck_and_tier_thresholds :
    (∀ (a : Article) (cl : List Claim) (v : Bool),
      ((calculate_score a cl v).should_factcheck = true
          ↔ 30 ≤ (calculate_score a cl v).total_score)
      ∧ ((calculate_score a cl v).priority = Priority.HIGH
          ↔ 85 ≤ (calculate_score a cl v).total_score)
      ∧ ((calculate_score a cl v).priority = Priority.MEDIUM
          ↔ 70 ≤ (calculate_score a cl v).total_score
            ∧ (calculate_score a cl v).total_score < 85)
      ∧ ((calculate_score a cl v).priority = Priority.LOW
          ↔ (calculate_score a cl v).total_score < 70))
    ∧ ∃ (a : Article) (cl : List Claim) (v : Bool),
        (calculate_score a cl v).should_factcheck = true
        ∧ (calculate_score a cl v).priority = Priority.LOW := by
  constructor
  · intro a cl v
    rw [calculate_score_should_eq, calculate_score_priority_eq]
    refine ⟨by simp [THRESHOLD], ?_, ?_, ?_⟩ <;>
      split_ifs with hh hm <;> simp <;> omega
  · exact ⟨exArticle, [exStatClaim], false, by decide, by decide⟩

/-- C7: the total score and the breakdown depend on the claims list only
through which claim types are present. -/
theorem calculate_score_type_presence_only (a : Article) (v : Bool)
    (cl₁ cl₂ : List Claim)
    (hs : (∃ c ∈ cl₁, c.type = CType.statistical) ↔ (∃ c ∈ cl₂, c.type = CType.statistical))
    (hc : (∃ c ∈ cl₁, c.type = CType.causal) ↔ (∃ c ∈ cl₂, c.type = CType.causal))
    (he : (∃ c ∈ cl₁, c.type = CType.extreme) ↔ (∃ c ∈ cl₂, c.type = CType.extreme)) :
    (calculate_score a cl₁ v).total_score = (calculate_score a cl₂ v).total_score
    ∧ (calculate_score a cl₁ v).breakdown = (calculate_score a cl₂ v).breakdown := by
  have e1 : (cl₁.filter fun c => c.type = CType.statistical).isEmpty
      = (cl₂.filter fun c => c.type = CType.statistical).isEmpty := by
    exact Bool.eq_iff_iff.mpr ((filter_type_isEmpty_iff cl₁ CType.statistical).trans
      ((not_congr hs).trans (filter_type_isEmpty_iff cl₂ CType.statistical).symm))
  have e2 : (cl₁.filter fun c => c.type = CType.causal).isEmpty
      = (cl₂.filter fun c => c.type = CType.causal).isEmpty := by
    exact Bool.eq_iff_iff.mpr ((filter_type_isEmpty_iff cl₁ CType.causal).trans
      ((not_congr hc).trans (filter_type_isEmpty_iff cl₂ CType.causal).symm))
  have e3 : (cl₁.filter fun c => c.type = CType.extreme).isEmpty
      = (cl₂.filter fun c => c.type = CType.extreme).isEmpty := by
    exact Bool.eq_iff_iff.mpr ((filter_type_isEmpty_iff cl₁ CType.extreme).trans
      ((not_congr he).trans (filter_type_isEmpty_iff cl₂ CType.extreme).symm))
  constructor
  · rw [calculate_score_total_eq, calculate_score_total_eq, e1, e2, e3]
  · rw [calculate_score_breakdown_eq, calculate_score_breakdown_eq, e1, e2, e3]

/-- Five statistical claims with pairwise different matched texts. -/
def fiveStatClaims : List Claim :=
  [ ⟨"a1".data, CType.statistical, Conf.HIGH, "m1".data⟩,
    ⟨"a2".data, CType.statistical, Conf.HIGH, "m2".data⟩,
    ⟨"a3".data, CType.statistical, Conf.HIGH, "m3".data⟩,
    ⟨"a4".data, CType.statistical, Conf.HIGH, "m4".data⟩,
    ⟨"a5".data, CType.statistical, Conf.HIGH, "m5".data⟩ ]

/-- Witness for C7: an article with 5 distinct statistical claims scores
exactly as one with a single statistical claim, and its statistical
contribution is 30. -/
theorem calculate_score_type_presence_only_witness :
    (calculate_score exArticle fiveStatClaims false).total_score
        = (calculate_score exArticle [exStatClaim] false).total_score
    ∧ (calculate_score exArticle fiveStatClaims false).breakdown
        = (calculate_score exArticle [exStatClaim] false).breakdown
    ∧ (calculate_score exArticle fiveStatClaims false).breakdown
        = [("statistical_claim", 30)] := by
  have h := calculate_score_type_presence_only exArticle false fiveStatClaims [exStatClaim]
    (by decide) (by decide) (by decide)
  exact ⟨h.1, h.2, by decide⟩

/-- C10: `calculate_score` reads only the `title` and `text` fields of the
article: two articles agreeing on them produce identical results for the
same claims and vague flag. -/
theorem calculate_score_title_text_only (a₁ a₂ : Article) (cl : List Claim) (v : Bool)
    (ht : a₁.title = a₂.title) (hx : a₁.text = a₂.text) :
    calculate_score a₁ cl v = calculate_score a₂ cl v := by
  cases a₁
  cases a₂
  simp only at ht hx
  subst ht
  subst hx
  rfl

/-- An article whose non-content fields are populated. -/
def wArticle1 : Article :=
  ⟨"http://a".data, "물가 급증".data, "정부 발표".data, "A일보".data, "2024-01-01".data, "김기자".data⟩

/-- The same title and text with different url, source, date and
journalist. -/
def wArticle2 : Article :=
  ⟨"http://b".data, "물가 급증".data, "정부 발표".data, "B신문".data, "2025-12-31".data, "박기자".data⟩

/-- Witness for C10: two articles differing in url, source, date and
journalist but agreeing on title and text get identical score results. -/
theorem calculate_score_title_text_only_witness :
    wArticle1 ≠ wArticle2
    ∧ calculate_score wArticle1 [exStatClaim] true
        = calculate_score wArticle2 [exStatClaim] true :=
  ⟨by decide, calculate_score_title_text_only wArticle1 wArticle2 [exStatClaim] true rfl rfl⟩

end FactCheck

namespace FactCheck

/-- C8: empty text yields no claims and no vague-source flag, and
`calculate_score` still produces a result from the remaining signals for an
empty-text article — it ignores every field but title on such an article,
and a title alone can still trigger categories (here political_economic and
title_keyword give a total of 30, enough to flag the article). -/
theorem empty_text_graceful :
    detect [] = []
    ∧ has_vague_source [] = false
    ∧ (∀ (u t sr d j : List Char) (cl : List Claim) (v : Bool),
        calculate_score ⟨u, t, [], sr, d, j⟩ cl v = calculate_score ⟨[], t, [], [], [], []⟩ cl v)
    ∧ calculate_score ⟨[], "물가 급증".data, [], [], [], []⟩ [] false =
        { total_score := 30,
          breakdown := [("political_economic", 10), ("title_keyword", 20)],
          should_factcheck := true,
          priority := Priority.LOW,
          claims_count := 0,
          statistical_claims := 0,
          causal_claims := 0,
          extreme_claims := 0 } := by
  refine ⟨by decide, by decide, fun u t sr d j cl v => rfl, by decide⟩

end FactCheck

namespace FactCheck

/-! ### C4: extreme-language terms -/

/-- The extreme vocabulary has no repeated words. -/
theorem extreme_words_nodup : extreme_words.Nodup := by decide

/-- Counterexample to C4 as stated: the vocabulary term "사상 최대" occurs
in the text "사상 최대", yet `detect` returns no claim of type `extreme` at
all — the statistical pattern `사상\s*(최대|최고|최저)` matches the same
span first, and deduplication by `matched_text` drops the extreme claim. -/
theorem extreme_term_emitted_counterexample :
    ("사상 최대").data ∈ extreme_words
    ∧ (firstOccur ("사상 최대").data ("사상 최대").data).isSome = true
    ∧ ¬ ∃ c ∈ detect ("사상 최대").data, c.type = CType.extreme := by
  refine ⟨by decide, by decide, ?_⟩
  decide

/-- C4 (amended): a vocabulary term occurring in the text is returned as an
extreme claim with confidence MEDIUM, matched text the term, and snippet the
stripped ±30-character window around its first occurrence — provided no
statistical or causal candidate already produced the same `matched_text`
(deduplication keeps the earlier record in that case). -/
theorem extreme_term_detected_unless_shadowed (t w : List Char) (idx : Nat)
    (hw : w ∈ extreme_words)
    (hfo : firstOccur w t = some idx)
    (hsh : ∀ c ∈ stat_candidates t ++ causal_candidates t, c.matched_text ≠ w) :
    ∃ c ∈ detect t,
      c.type = CType.extreme ∧ c.confidence = Conf.MEDIUM ∧ c.matched_text = w
      ∧ c.claim = stripWS (slice t (idx - 30) (min t.length (idx + w.length + 30))) := by
  obtain ⟨ws₁, ws₂, hsplit⟩ := List.append_of_mem hw
  have hnodup := extreme_words_nodup
  rw [hsplit] at hnodup
  have hw1 : w ∉ ws₁ := fun hmem =>
    (List.nodup_append.mp hnodup).2.2 hmem (List.mem_cons_self _ _)
  have hext : extreme_candidates t
      = ws₁.filterMap (extF t) ++ extremeClaimAt t w idx :: ws₂.filterMap (extF t) := by
    rw [extreme_candidates, hsplit, List.filterMap_append]
    have : extF t w = some (extremeClaimAt t w idx) := by
      rw [extF, hfo, Option.map_some']
    rw [List.filterMap_cons, this]
  have hshape : stat_candidates t ++ causal_candidates t ++ extreme_candidates t
      = (stat_candidates t ++ (causal_candidates t ++ ws₁.filterMap (extF t)))
        ++ extremeClaimAt t w idx :: ws₂.filterMap (extF t) := by
    rw [hext]
    simp [List.append_assoc]
  have hcw : extremeClaimAt t w idx ∈ detect t := by
    rw [detect, deduplicate, hshape]
    apply dedupLoop_keep_first _ _ _ _ _ (List.not_mem_nil _)
    intro d hd
    rcases List.mem_append.mp hd with hd | hd
    · exact hsh d (List.mem_append_left _ hd)
    · rcases List.mem_append.mp hd with hd | hd
      · exact hsh d (List.mem_append_right _ hd)
      · obtain ⟨w', hw', hf⟩ := List.mem_filterMap.mp hd
        have hmt : d.matched_text = w' := by
          cases hfo' : firstOccur w' t with
          | none => rw [extF, hfo', Option.map_none'] at hf; exact absurd hf (by simp)
          | some i =>
            rw [extF, hfo', Option.map_some', Option.some.injEq] at hf
            rw [← hf]
            rfl
        intro heq
        rw [hmt] at heq
        have hweq : w' = w := heq.trans rfl
        exact hw1 (hweq ▸ hw')
  exact ⟨extremeClaimAt t w idx, hcw, rfl, rfl, rfl, rfl⟩

/-- Witness for the amended C4: the term "폭증" in the text "폭증"
(which triggers no statistical or causal pattern) is returned as an extreme
claim with its context snippet. -/
theorem extreme_term_detected_unless_shadowed_witness :
    ∃ c ∈ detect ("폭증").data,
      c.type = CType.extreme ∧ c.confidence = Conf.MEDIUM
      ∧ c.matched_text = ("폭증").data
      ∧ c.claim = stripWS (slice ("폭증").data (0 - 30)
          (min ("폭증").data.length (0 + ("폭증").data.length + 30))) :=
  extreme_term_detected_unless_shadowed ("폭증").data ("폭증").data 0
    (by decide) (by decide) (by decide)

end FactCheck

namespace FactCheck

/-! ### C9: snippet sizes -/

/-- Stripping whitespace never lengthens a string. -/
theorem stripWS_length_le (l : List Char) : (stripWS l).length ≤ l.length := by
  rw [stripWS]
  calc ((l.dropWhile (chMatch .ws)).reverse.dropWhile (chMatch .ws)).reverse.length
      = ((l.dropWhile (chMatch .ws)).reverse.dropWhile (chMatch .ws)).length :=
        List.length_reverse _
    _ ≤ (l.dropWhile (chMatch .ws)).reverse.length :=
        (List.dropWhile_sublist _).length_le
    _ = (l.dropWhile (chMatch .ws)).length := List.length_reverse _
    _ ≤ l.length := (List.dropWhile_sublist _).length_le

/-- Length of a Python slice. -/
theorem slice_length (cs : List Char) (a b : Nat) :
    (slice cs a b).length = min b cs.length - a := by
  simp [slice]

/-- Every statistical candidate has type `statistical` and a snippet at most
60 characters longer than its matched text. -/
theorem stat_candidates_shape (t : List Char) (c : Claim)
    (hc : c ∈ stat_candidates t) :
    c.type = CType.statistical ∧ c.claim.length ≤ c.matched_text.length + 60 := by
  rw [stat_candidates] at hc
  obtain ⟨l, hl, hcl⟩ := List.mem_flatten.mp hc
  obtain ⟨p, _hp, rfl⟩ := List.mem_map.mp hl
  obtain ⟨se, _hse, rfl⟩ := List.mem_map.mp hcl
  refine ⟨rfl, ?_⟩
  have h1 := stripWS_length_le (slice t (se.1 - 30) (min t.length (se.2 + 30)))
  rw [slice_length] at h1
  show (stripWS (slice t (se.1 - 30) (min t.length (se.2 + 30)))).length
      ≤ (slice t se.1 se.2).length + 60
  rw [slice_length]
  omega

/-- Every causal candidate has type `causal` and uses the full matched
phrase as its snippet. -/
theorem causal_candidates_shape (t : List Char) (c : Claim)
    (hc : c ∈ causal_candidates t) :
    c.type = CType.causal ∧ c.claim = c.matched_text := by
  rw [causal_candidates] at hc
  obtain ⟨l, hl, hcl⟩ := List.mem_flatten.mp hc
  obtain ⟨p, _hp, rfl⟩ := List.mem_map.mp hl
  obtain ⟨se, _hse, rfl⟩ := List.mem_map.mp hcl
  exact ⟨rfl, rfl⟩

/-- Every extreme candidate has type `extreme` and a snippet at most 60
characters longer than its matched word. -/
theorem extreme_candidates_shape (t : List Char) (c : Claim)
    (hc : c ∈ extreme_candidates t) :
    c.type = CType.extreme ∧ c.claim.length ≤ c.matched_text.length + 60 := by
  rw [extreme_candidates] at hc
  obtain ⟨w, _hw, hf⟩ := List.mem_filterMap.mp hc
  cases hfo : firstOccur w t with
  | none => rw [extF, hfo, Option.map_none'] at hf; exact absurd hf (by simp)
  | some idx =>
    rw [extF, hfo, Option.map_some', Option.some.injEq] at hf
    subst hf
    refine ⟨rfl, ?_⟩
    have h1 := stripWS_length_le (slice t (idx - 30) (min t.length (idx + w.length + 30)))
    rw [slice_length] at h1
    show (stripWS (slice t (idx - 30) (min t.length (idx + w.length + 30)))).length
        ≤ w.length + 60
    omega

/-- A long causal text: the pattern `(.+?)\s*(때문에|탓에)\s*(.+)` matches
the full 503-character string, which becomes the claim's snippet. -/
def longCausalText : List Char :=
  List.replicate 250 'a' ++ ("때문에").data ++ List.replicate 250 'b'

set_option maxRecDepth 100000 in
/-- Counterexample to C9 as stated: `detect` returns a causal claim whose
snippet is over 400 characters long, far beyond "approximately 160". -/
theorem snippet_bound_counterexample :
    ∃ c ∈ detect longCausalText, c.type = CType.causal ∧ 400 < c.claim.length := by
  decide

/-- C9 (amended): every claim's snippet is at most 60 characters longer
than its matched text (the ±30-character window), and a causal claim's
snippet is exactly its matched phrase — so snippets are only bounded
relative to the matched span, not by any absolute ~160-character limit. -/
theorem snippet_bound_amended (t : List Char) (c : Claim) (hc : c ∈ detect t) :
    c.claim.length ≤ c.matched_text.length + 60
    ∧ (c.type = CType.causal → c.claim = c.matched_text) := by
  have hmem : c ∈ stat_candidates t ++ causal_candidates t ++ extreme_candidates t := by
    rw [detect, deduplicate] at hc
    exact (dedupLoop_sublist _ _).subset hc
  rcases List.mem_append.mp hmem with h | h
  · rcases List.mem_append.mp h with h | h
    · obtain ⟨hty, hb⟩ := stat_candidates_shape t c h
      exact ⟨hb, fun hcau => nomatch hty.symm.trans hcau⟩
    · obtain ⟨hty, heq⟩ := causal_candidates_shape t c h
      exact ⟨heq ▸ Nat.le_add_right _ _, fun _ => heq⟩
  · obtain ⟨hty, hb⟩ := extreme_candidates_shape t c h
    exact ⟨hb, fun hcau => nomatch hty.symm.trans hcau⟩

/-- The text and claim for the amended-C9 witness. -/
def smallCausalText : List Char := ("A 때문에 B").data

/-- The causal claim `detect` returns on that text. -/
def smallCausalClaim : Claim :=
  ⟨smallCausalText, CType.causal, Conf.MEDIUM, smallCausalText⟩

/-- Witness for the amended C9, at a concrete causal claim. -/
theorem snippet_bound_amended_witness :
    smallCausalClaim.claim.length ≤ smallCausalClaim.matched_text.length + 60
    ∧ (smallCausalClaim.type = CType.causal
        → smallCausalClaim.claim = smallCausalClaim.matched_text) :=
  snippet_bound_amended smallCausalText smallCausalClaim (by decide)

end FactCheck

namespace FactCheck

/-! ### C5, C6: the reporting deduplicator -/

/-- `strLe` is reflexive. -/
theorem strLe_refl (a : List Char) : strLe a a = true := by
  induction a with
  | nil => rfl
  | cons x xs ih => simp [strLe, lt_irrefl, ih]

/-- `strLe` is total. -/
theorem strLe_total (a b : List Char) : strLe a b = true ∨ strLe b a = true := by
  induction a generalizing b with
  | nil => left; rfl
  | cons x xs ih =>
    cases b with
    | nil => right; rfl
    | cons y ys =>
      rcases lt_trichotomy x y with h | h | h
      · left; simp [strLe, h]
      · subst h
        rcases ih ys with h' | h'
        · left; simp [strLe, lt_irrefl, h']
        · right; simp [strLe, lt_irrefl, h']
      · right; simp [strLe, h]

/-- `strLe` is transitive. -/
theorem strLe_trans (a b c : List Char) (hab : strLe a b = true)
    (hbc : strLe b c = true) : strLe a c = true := by
  induction a generalizing b c with
  | nil => rfl
  | cons x xs ih =>
    cases b with
    | nil => exact absurd hab (by simp [strLe])
    | cons y ys =>
      cases c with
      | nil => exact absurd hbc (by simp [strLe])
      | cons z zs =>
        rcases lt_trichotomy x y with hxy | hxy | hxy
        · rcases lt_trichotomy y z with hyz | hyz | hyz
          · simp [strLe, lt_trans hxy hyz]
          · subst hyz; simp [strLe, hxy]
          · rw [strLe, if_neg (lt_asymm hyz), if_pos hyz] at hbc
            exact absurd hbc (by simp)
        · subst hxy
          rw [strLe, if_neg (lt_irrefl x), if_neg (lt_irrefl x)] at hab
          rcases lt_trichotomy x z with hxz | hxz | hxz
          · simp [strLe, hxz]
          · subst hxz
            rw [strLe, if_neg (lt_irrefl x), if_neg (lt_irrefl x)] at hbc ⊢
            exact ih ys zs hab hbc
          · rw [strLe, if_neg (lt_asymm hxz), if_pos hxz] at hbc
            exact absurd hbc (by simp)
        · rw [strLe, if_neg (lt_asymm hxy), if_pos hxy] at hab
          exact absurd hab (by simp)

/-- On a date-sorted list, the head of every group produced by the grouping
pass is date-below all its related members. -/
theorem groupsOfGo_head_le (f : Nat) :
    ∀ l : List AnalyzedArticle, l.Pairwise dateRel →
      ∀ p ∈ groupsOfGo f l, ∀ m ∈ p.2, dateRel p.1 m := by
  induction f with
  | zero => intro l _ p hp; simp [groupsOfGo] at hp
  | succ f ih =>
    intro l hl p hp m hm
    cases l with
    | nil => simp [groupsOfGo] at hp
    | cons cur rest =>
      obtain ⟨hhead, htail⟩ := List.pairwise_cons.mp hl
      rw [groupsOfGo] at hp
      rcases List.mem_cons.mp hp with rfl | hp
      · exact hhead m (List.mem_of_mem_filter hm)
      · exact ih _ (List.Pairwise.sublist (List.filter_sublist _) htail) p hp m hm

/-- The date sort is sorted with respect to `dateRel`. -/
theorem sortByDate_sorted (batch : List AnalyzedArticle) :
    (sortByDate batch).Pairwise dateRel := by
  haveI : IsTotal AnalyzedArticle dateRel := ⟨fun a b => strLe_total _ _⟩
  haveI : IsTrans AnalyzedArticle dateRel := ⟨fun a b c => strLe_trans _ _ _⟩
  exact List.sorted_insertionSort dateRel batch

/-- C5: every reported group comes from a group of the single pass over the
date-sorted batch; its representative is date-least in the group (under the
raw lexicographic string order on dates), `related_count` is the group size
minus one, and `related_info` is one "source (journalist)" string per
non-representative member, in group order. -/
theorem report_group_representative_earliest (batch : List AnalyzedArticle)
    (rg : ReportGroup) (hrg : rg ∈ deduplicate_articles batch) :
    ∃ p ∈ groupsOf (sortByDate batch),
      rg = mkGroup p.1 p.2
      ∧ (∀ m ∈ p.1 :: p.2, strLe p.1.article.date m.article.date = true)
      ∧ rg.related_count = (p.1 :: p.2).length - 1
      ∧ rg.related_info = p.2.map (fun item =>
          item.article.source ++ " (".data ++ item.article.journalist ++ ")".data) := by
  rw [deduplicate_articles] at hrg
  have hrg' : rg ∈ (groupsOf (sortByDate batch)).map (fun g => mkGroup g.1 g.2) :=
    (List.take_sublist _ _).subset hrg
  obtain ⟨p, hp, rfl⟩ := List.mem_map.mp hrg'
  refine ⟨p, hp, rfl, ?_, ?_, ?_⟩
  · intro m hm
    rcases List.mem_cons.mp hm with rfl | hm
    · exact strLe_refl _
    · exact groupsOfGo_head_le _ _ (sortByDate_sorted batch) p hp m hm
  · simp [mkGroup]
  · simp [mkGroup]

/-- When no two articles are similar, the grouping pass puts every article
in its own group. -/
theorem groupsOfGo_no_similar (f : Nat) :
    ∀ l : List AnalyzedArticle, l.length ≤ f →
      l.Pairwise (fun x y => simGT x y = false) →
      groupsOfGo f l = l.map (fun x => (x, [])) := by
  induction f with
  | zero =>
    intro l hl _
    rw [List.eq_nil_of_length_eq_zero (Nat.le_zero.mp hl)]
    rfl
  | succ f ih =>
    intro l hl hp
    cases l with
    | nil => rfl
    | cons cur rest =>
      obtain ⟨hhead, htail⟩ := List.pairwise_cons.mp hp
      have h1 : rest.filter (fun cand => simGT cur cand) = [] :=
        List.filter_eq_nil_iff.mpr (fun a ha => by simp [hhead a ha])
      have h2 : rest.filter (fun cand => !(simGT cur cand)) = rest :=
        List.filter_eq_self.mpr (fun a ha => by simp [hhead a ha])
      rw [groupsOfGo, h1, h2, List.map_cons,
        ih rest (by simp only [List.length_cons] at hl; omega) htail]

/-- C6: the reporting output never exceeds 5 groups, and a batch of 7
pairwise non-similar articles yields exactly 5 groups, each with
`related_count = 0`. -/
theorem dedupe_capped_at_five (batch : List AnalyzedArticle) :
    (deduplicate_articles batch).length ≤ 5
    ∧ (batch.length = 7 →
       batch.Pairwise (fun x y => simGT x y = false ∧ simGT y x = false) →
       (deduplicate_articles batch).length = 5
       ∧ ∀ rg ∈ deduplicate_articles batch, rg.related_count = 0) := by
  constructor
  · rw [deduplicate_articles]
    exact List.length_take_le _ _
  · intro hlen hpw
    have hperm : List.Perm (sortByDate batch) batch := List.perm_insertionSort _ _
    have hpw' : (sortByDate batch).Pairwise
        (fun x y => simGT x y = false ∧ simGT y x = false) :=
      (List.Perm.pairwise_iff (fun h => ⟨h.2, h.1⟩) hperm).mpr hpw
    have hpw1 : (sortByDate batch).Pairwise (fun x y => simGT x y = false) :=
      hpw'.imp (fun h => h.1)
    have hgroups : groupsOf (sortByDate batch)
        = (sortByDate batch).map (fun x => (x, [])) :=
      groupsOfGo_no_similar _ _ le_rfl hpw1
    have hslen : (sortByDate batch).length = 7 := by
      rw [sortByDate, List.length_insertionSort, hlen]
    constructor
    · rw [deduplicate_articles, hgroups]
      simp [List.length_take, hslen]
    · intro rg hrg
      rw [deduplicate_articles, hgroups] at hrg
      have hmem := (List.take_sublist _ _).subset hrg
      rw [List.map_map] at hmem
      obtain ⟨x, _hx, rfl⟩ := List.mem_map.mp hmem
      rfl

/-- A minimal analyzed article used by the deduplicator witnesses. -/
def mkAA (title date : String) : AnalyzedArticle :=
  { url := [],
    article := { url := [], title := title.data, text := [],
                 source := "S".data, date := date.data, journalist := "J".data },
    claims := [],
    score := calculate_score
      { url := [], title := title.data, text := [], source := [], date := [], journalist := [] }
      [] false }

/-- Two analyzed articles with similar titles and different dates. -/
def batchPair : List AnalyzedArticle :=
  [mkAA "abcdefghij" "2024-01-07", mkAA "abcdefghiz" "2024-01-05"]

/-- The group the deduplicator reports for `batchPair`: the earlier-dated
article represents, the later one is related. -/
def rgPair : ReportGroup :=
  mkGroup (mkAA "abcdefghiz" "2024-01-05") [mkAA "abcdefghij" "2024-01-07"]

set_option maxRecDepth 100000 in
/-- Witness for C5: the pair batch produces `rgPair`, whose representative
is the earlier-dated member. -/
theorem report_group_representative_earliest_witness :
    ∃ p ∈ groupsOf (sortByDate batchPair),
      rgPair = mkGroup p.1 p.2
      ∧ (∀ m ∈ p.1 :: p.2, strLe p.1.article.date m.article.date = true)
      ∧ rgPair.related_count = (p.1 :: p.2).length - 1
      ∧ rgPair.related_info = p.2.map (fun item =>
          item.article.source ++ " (".data ++ item.article.journalist ++ ")".data) :=
  report_group_representative_earliest batchPair rgPair (by decide)

/-- Seven analyzed articles with pairwise dissimilar titles. -/
def batchSeven : List AnalyzedArticle :=
  [ mkAA "1111" "01", mkAA "2222" "02", mkAA "3333" "03", mkAA "4444" "04",
    mkAA "5555" "05", mkAA "6666" "06", mkAA "7777" "07" ]

set_option maxRecDepth 100000 in
/-- Witness for C6: the seven-article batch yields exactly 5 groups and the
first reported group has no related articles. -/
theorem dedupe_capped_at_five_witness :
    (deduplicate_articles batchSeven).length = 5
    ∧ (mkGroup (mkAA "1111" "01") []).related_count = 0 :=
  ⟨((dedupe_capped_at_five batchSeven).2 (by decide) (by decide)).1,
   ((dedupe_capped_at_five batchSeven).2 (by decide) (by decide)).2
     (mkGroup (mkAA "1111" "01") []) (by decide)⟩

end FactCheck
